import Mathlib

/-!
Verification development for the sst/extension sidecar.

The Go sources embedded here:
- `src/server/listener.go`: the telemetry listener (`Start`'s HTTP handler
  dispatch, `Shutdown`).
- `src/unnamed/part_000` (`main.go` of the extension): the lifecycle
  coordinator loop, the per-invocation buffer state machine, the embedded
  `::sst::` routing-directive parsing, and the CloudWatch put/create retry
  loop.

Conventions of the embedding:
- JSON values are modelled by the inductive `Json`; numbers keep their
  source literal text (the Go code never computes with the float values, it
  only reformats them with `%v`, so the literal is what reaches the output).
- Go's `json.Unmarshal` into the concrete record structs is modelled by
  decode functions returning `value × Bool`, where the `Bool` is `err == nil`;
  following Go, a decode error still leaves the successfully-assigned fields
  in place (the listener discards the error and pushes the value anyway).
- Struct key matching follows Go: exact match or ASCII case-insensitive
  match, later duplicate keys overwriting earlier ones.
- The directive payload regex `::sst::(.+)` is modelled by `findSstPayload`:
  leftmost occurrence of the marker followed by at least one non-newline
  character; the capture extends to the end of line (greedy `.+`).
-/

namespace SstExt

/-- A JSON value, as produced by parsing a `json.RawMessage`.  Numbers keep
their literal text. -/
inductive Json where
  | null : Json
  | bool (b : Bool) : Json
  | num (lit : String) : Json
  | str (s : String) : Json
  | arr (elems : List Json) : Json
  | obj (fields : List (String × Json)) : Json

/-- JSON insignificant whitespace: space, tab, newline, carriage return. -/
def isWsChar (c : Char) : Bool :=
  [32, 9, 10, 13].contains c.toNat

def skipWs (cs : List Char) : List Char := cs.dropWhile isWsChar

def isDigitChar (c : Char) : Bool :=
  48 ≤ c.toNat && c.toNat ≤ 57

def hexVal (c : Char) : Option Nat :=
  let n := c.toNat
  if 48 ≤ n ∧ n ≤ 57 then some (n - 48)
  else if 97 ≤ n ∧ n ≤ 102 then some (n - 97 + 10)
  else if 65 ≤ n ∧ n ≤ 70 then some (n - 65 + 10)
  else none

/-- The two-character string escapes of JSON, keyed by the character after
the backslash. -/
def escChar (c : Char) : Option Char :=
  match c.toNat with
  | 34 => some (Char.ofNat 34)
  | 92 => some (Char.ofNat 92)
  | 47 => some (Char.ofNat 47)
  | 98 => some (Char.ofNat 8)
  | 102 => some (Char.ofNat 12)
  | 110 => some (Char.ofNat 10)
  | 114 => some (Char.ofNat 13)
  | 116 => some (Char.ofNat 9)
  | _ => none

/-- Parse the body of a JSON string (after the opening quote), returning the
decoded characters and the remaining input.  `\uXXXX` escapes are decoded as
single code points (surrogate pairs are not recombined, which no input in
this development exercises).  Raw control characters are rejected, as in Go. -/
def parseStrBody : Nat → List Char → Option (List Char × List Char)
  | 0, _ => none
  | _ + 1, [] => none
  | fuel + 1, c :: rest =>
    if c == '"' then some ([], rest)
    else if c == '\\' then
      match rest with
      | [] => none
      | e :: rs =>
        if e == 'u' then
          match rs with
          | h1 :: h2 :: h3 :: h4 :: rs2 =>
            match hexVal h1, hexVal h2, hexVal h3, hexVal h4 with
            | some a, some b, some c2, some d =>
              match parseStrBody fuel rs2 with
              | some (out, rem) => some (Char.ofNat (((a * 16 + b) * 16 + c2) * 16 + d) :: out, rem)
              | none => none
            | _, _, _, _ => none
          | _ => none
        else
          match escChar e with
          | some ec =>
            match parseStrBody fuel rs with
            | some (out, rem) => some (ec :: out, rem)
            | none => none
          | none => none
    else if c.toNat < 32 then none
    else
      match parseStrBody fuel rest with
      | some (out, rem) => some (c :: out, rem)
      | none => none

/-- Optional fraction part of a JSON number. -/
def parseFrac (cs : List Char) : List Char × List Char :=
  match cs with
  | '.' :: r =>
    let ds := r.takeWhile isDigitChar
    if ds.isEmpty then ([], cs) else ('.' :: ds, r.dropWhile isDigitChar)
  | _ => ([], cs)

/-- Optional exponent part of a JSON number. -/
def parseExp (cs : List Char) : List Char × List Char :=
  match cs with
  | c :: rest =>
    if c == 'e' || c == 'E' then
      match rest with
      | s :: rest2 =>
        if s == '+' || s == '-' then
          let ds := rest2.takeWhile isDigitChar
          if ds.isEmpty then ([], cs) else (c :: s :: ds, rest2.dropWhile isDigitChar)
        else
          let ds := rest.takeWhile isDigitChar
          if ds.isEmpty then ([], cs) else (c :: ds, rest.dropWhile isDigitChar)
      | [] => ([], cs)
    else ([], cs)
  | [] => ([], cs)

def parseNumCore (cs : List Char) : Option (List Char × List Char) :=
  let intDs := cs.takeWhile isDigitChar
  let rest := cs.dropWhile isDigitChar
  match intDs with
  | [] => none
  | d :: ds =>
    if d == '0' && !ds.isEmpty then none
    else
      let fr := parseFrac rest
      let ex := parseExp fr.2
      some (intDs ++ fr.1 ++ ex.1, ex.2)

def parseNum (cs : List Char) : Option (List Char × List Char) :=
  match cs with
  | '-' :: rest =>
    match parseNumCore rest with
    | some (lit, rem) => some ('-' :: lit, rem)
    | none => none
  | _ => parseNumCore cs

mutual

/-- Parse one JSON value (fuel-bounded; the fuel given by `parseJson` always
suffices). -/
def parseValue : Nat → List Char → Option (Json × List Char)
  | 0, _ => none
  | fuel + 1, cs =>
    match skipWs cs with
    | [] => none
    | 'n' :: 'u' :: 'l' :: 'l' :: rest => some (Json.null, rest)
    | 't' :: 'r' :: 'u' :: 'e' :: rest => some (Json.bool true, rest)
    | 'f' :: 'a' :: 'l' :: 's' :: 'e' :: rest => some (Json.bool false, rest)
    | '"' :: rest =>
      match parseStrBody (rest.length + 1) rest with
      | some (out, rem) => some (Json.str (String.mk out), rem)
      | none => none
    | '[' :: rest =>
      match skipWs rest with
      | c2 :: rem =>
        if c2 == ']' then some (Json.arr [], rem)
        else parseElems fuel rest []
      | [] => none
    | c :: rest =>
      if c.toNat == 123 then
        match skipWs rest with
        | c2 :: rem =>
          if c2.toNat == 125 then some (Json.obj [], rem)
          else parseMembers fuel rest []
        | [] => none
      else
        match parseNum (c :: rest) with
        | some (lit, rem) => some (Json.num (String.mk lit), rem)
        | none => none

/-- Parse the elements of a non-empty JSON array. -/
def parseElems : Nat → List Char → List Json → Option (Json × List Char)
  | 0, _, _ => none
  | fuel + 1, cs, acc =>
    match parseValue fuel cs with
    | none => none
    | some (v, rem) =>
      match skipWs rem with
      | ',' :: rest => parseElems fuel rest (v :: acc)
      | ']' :: rest => some (Json.arr (v :: acc).reverse, rest)
      | _ => none

/-- Parse the members of a non-empty JSON object. -/
def parseMembers : Nat → List Char → List (String × Json) → Option (Json × List Char)
  | 0, _, _ => none
  | fuel + 1, cs, acc =>
    match skipWs cs with
    | '"' :: rest =>
      match parseStrBody (rest.length + 1) rest with
      | none => none
      | some (key, rem) =>
        match skipWs rem with
        | ':' :: rem2 =>
          match parseValue fuel rem2 with
          | none => none
          | some (v, rem3) =>
            match skipWs rem3 with
            | ',' :: rem4 => parseMembers fuel rem4 ((String.mk key, v) :: acc)
            | c :: rem4 =>
              if c.toNat == 125 then some (Json.obj ((String.mk key, v) :: acc).reverse, rem4)
              else none
            | [] => none
        | _ => none
    | _ => none

end

/-- Go `json.Unmarshal` top level: one value, then only whitespace. -/
def parseJson (s : String) : Option Json :=
  match parseValue (2 * s.length + 2) s.data with
  | some (v, rem) => if (skipWs rem).isEmpty then some v else none
  | none => none

def asciiLower (c : Char) : Char :=
  if 65 ≤ c.toNat ∧ c.toNat ≤ 90 then Char.ofNat (c.toNat + 32) else c

/-- Go's struct key matching: exact, or case-insensitive (ASCII suffices for
the keys appearing in this program). -/
def matchesKey (k key : String) : Bool :=
  k == key || k.data.map asciiLower == key.data.map asciiLower

/-- Decode a `string` struct field named `key` from the fields of a JSON
object, Go style: keys are assigned in order (later duplicates overwrite),
a missing key leaves the zero value `""`, a `null` value is a no-op, and a
value of any other non-string type records a decode error but does not
disturb a previously assigned value.  Returns `(value, err == nil)`. -/
def strField (fields : List (String × Json)) (key : String) : String × Bool :=
  fields.foldl (fun acc kv =>
    if matchesKey kv.1 key then
      match kv.2 with
      | Json.str s => (s, acc.2)
      | Json.null => acc
      | _ => (acc.1, false)
    else acc) ("", true)

/-- Decode a `float64` struct field, keeping the number's literal text (the
program only reformats the value with `%v`).  Zero value is `"0"`. -/
def numField (fields : List (String × Json)) (key : String) : String × Bool :=
  fields.foldl (fun acc kv =>
    if matchesKey kv.1 key then
      match kv.2 with
      | Json.num lit => (lit, acc.2)
      | Json.null => acc
      | _ => (acc.1, false)
    else acc) ("0", true)

def digitsToNat (ds : List Char) : Nat :=
  ds.foldl (fun n c => n * 10 + (c.toNat - 48)) 0

/-- Go decodes a JSON number into `int64` from its literal; a fraction or an
exponent makes the literal unparsable as an integer and errors. -/
def parseIntLit (s : String) : Option Int :=
  match s.data with
  | '-' :: ds =>
    if !ds.isEmpty && ds.all isDigitChar then some (-(digitsToNat ds : Int)) else none
  | ds =>
    if !ds.isEmpty && ds.all isDigitChar then some ((digitsToNat ds : Int)) else none

/-- Decode an `int64` struct field. -/
def intField (fields : List (String × Json)) (key : String) : Int × Bool :=
  fields.foldl (fun acc kv =>
    if matchesKey kv.1 key then
      match kv.2 with
      | Json.num lit =>
        match parseIntLit lit with
        | some n => (n, acc.2)
        | none => (acc.1, false)
      | Json.null => acc
      | _ => (acc.1, false)
    else acc) (0, true)

/-- Decode a nested struct field: yields the JSON object's fields (to be
decoded further), the zero value being the empty field list. -/
def objField (fields : List (String × Json)) (key : String) :
    List (String × Json) × Bool :=
  fields.foldl (fun acc kv =>
    if matchesKey kv.1 key then
      match kv.2 with
      | Json.obj fs => (fs, acc.2)
      | Json.null => acc
      | _ => (acc.1, false)
    else acc) ([], true)

/-- Decode a `json.RawMessage` struct field: any JSON value is captured
verbatim and never errors; `none` means the key was absent (a nil raw
message). -/
def rawField (fields : List (String × Json)) (key : String) : Option Json :=
  fields.foldl (fun acc kv =>
    if matchesKey kv.1 key then some kv.2 else acc) none

/-! ## listener.go: event types and decoders -/

/-- `PlatformInitStartEvent` of listener.go. -/
structure PlatformInitStartEvent where
  initializationType : String
  phase : String
  runtimeVersion : String
  runtimeVersionArn : String
deriving DecidableEq

/-- `PlatformStartEvent` of listener.go. -/
structure PlatformStartEvent where
  requestID : String
  version : String
deriving DecidableEq

/-- The anonymous `Metrics` struct of `PlatformRuntimeDone`. -/
structure RuntimeDoneMetrics where
  durationMs : String
deriving DecidableEq

/-- `PlatformRuntimeDone` of listener.go. -/
structure PlatformRuntimeDone where
  requestID : String
  metrics : RuntimeDoneMetrics
deriving DecidableEq

/-- The anonymous `Metrics` struct of `PlatformReportEvent`. -/
structure ReportMetrics where
  durationMs : String
  billedDurationMs : Int
  memorySizeMb : Int
  maxMemoryUsedMb : Int
  initDurationMs : Int
deriving DecidableEq

/-- `PlatformReportEvent` of listener.go. -/
structure PlatformReportEvent where
  requestID : String
  metrics : ReportMetrics
deriving DecidableEq

/-- `json.Unmarshal(evt.Record, &PlatformInitStartEvent{...})`. -/
def decodePlatformInitStartEvent (j : Json) : PlatformInitStartEvent × Bool :=
  match j with
  | Json.obj fields =>
    let it := strField fields "initializationType"
    let ph := strField fields "phase"
    let rv := strField fields "runtimeVersion"
    let ra := strField fields "runtimeVersionArn"
    (⟨it.1, ph.1, rv.1, ra.1⟩, it.2 && ph.2 && rv.2 && ra.2)
  | Json.null => (⟨"", "", "", ""⟩, true)
  | _ => (⟨"", "", "", ""⟩, false)

/-- `json.Unmarshal(evt.Record, &PlatformStartEvent{...})`. -/
def decodePlatformStartEvent (j : Json) : PlatformStartEvent × Bool :=
  match j with
  | Json.obj fields =>
    let rid := strField fields "requestId"
    let ver := strField fields "version"
    (⟨rid.1, ver.1⟩, rid.2 && ver.2)
  | Json.null => (⟨"", ""⟩, true)
  | _ => (⟨"", ""⟩, false)

/-- `json.Unmarshal(evt.Record, &PlatformRuntimeDone{...})`. -/
def decodePlatformRuntimeDone (j : Json) : PlatformRuntimeDone × Bool :=
  match j with
  | Json.obj fields =>
    let rid := strField fields "requestId"
    let mf := objField fields "metrics"
    let dur := numField mf.1 "durationMs"
    (⟨rid.1, ⟨dur.1⟩⟩, rid.2 && mf.2 && dur.2)
  | Json.null => (⟨"", ⟨"0"⟩⟩, true)
  | _ => (⟨"", ⟨"0"⟩⟩, false)

/-- `json.Unmarshal(evt.Record, &PlatformReportEvent{...})`. -/
def decodePlatformReportEvent (j : Json) : PlatformReportEvent × Bool :=
  match j with
  | Json.obj fields =>
    let rid := strField fields "requestId"
    let mf := objField fields "metrics"
    let dur := numField mf.1 "durationMs"
    let bil := intField mf.1 "billedDurationMs"
    let mem := intField mf.1 "memorySizeMb"
    let mx := intField mf.1 "maxMemoryUsedMb"
    let ini := intField mf.1 "initDurationMs"
    (⟨rid.1, ⟨dur.1, bil.1, mem.1, mx.1, ini.1⟩⟩,
     rid.2 && mf.2 && dur.2 && bil.2 && mem.2 && mx.2 && ini.2)
  | Json.null => (⟨"", ⟨"0", 0, 0, 0, 0⟩⟩, true)
  | _ => (⟨"", ⟨"0", 0, 0, 0, 0⟩⟩, false)

/-- `var specific string; json.Unmarshal(evt.Record, &specific)` of the
`function` case. -/
def decodeFunctionRecord (j : Json) : String × Bool :=
  match j with
  | Json.str s => (s, true)
  | Json.null => ("", true)
  | _ => ("", false)

/-- An inbound envelope `{time, type, record}` (listener.go `UnknownEvent`),
with the `json.RawMessage` record already parsed to a JSON value (the outer
`json.Unmarshal(body, &slice)` only succeeds on well-formed JSON). -/
structure UnknownEvent where
  time : String
  type : String
  record : Json

/-- The decoded payload stored in a queued `Event`'s `Record` field. -/
inductive Record where
  | initStart (v : PlatformInitStartEvent) : Record
  | start (v : PlatformStartEvent) : Record
  | report (v : PlatformReportEvent) : Record
  | runtimeDone (v : PlatformRuntimeDone) : Record
  | function (s : String) : Record
deriving DecidableEq

/-- A queued `Event` (listener.go `Event`). -/
structure Event where
  time : String
  type : String
  record : Record
deriving DecidableEq

/-- The event pushed for a recognized envelope: the body of each recognized
`case` of the `switch evt.Type` in listener.go's handler.  (For an
unrecognized envelope this value is never pushed; the catch-all result is
arbitrary.) -/
def dispatchEvent (evt : UnknownEvent) : Event :=
  if evt.type = "platform.initStart" then
    ⟨evt.time, evt.type, Record.initStart (decodePlatformInitStartEvent evt.record).1⟩
  else if evt.type = "function" then
    ⟨evt.time, evt.type, Record.function (decodeFunctionRecord evt.record).1⟩
  else if evt.type = "platform.start" then
    ⟨evt.time, evt.type, Record.start (decodePlatformStartEvent evt.record).1⟩
  else if evt.type = "platform.report" then
    ⟨evt.time, evt.type, Record.report (decodePlatformReportEvent evt.record).1⟩
  else if evt.type = "platform.runtimeDone" then
    ⟨evt.time, evt.type, Record.runtimeDone (decodePlatformRuntimeDone evt.record).1⟩
  else ⟨evt.time, evt.type, Record.function ""⟩

/-- One iteration of the `for _, evt := range slice` loop in listener.go's
HTTP handler: the events pushed onto the `Events` channel for one envelope.
The four known-but-ignored platform types and unknown types push nothing. -/
def handleEnvelope (evt : UnknownEvent) : List Event :=
  if evt.type = "platform.initStart" then
    [⟨evt.time, evt.type, Record.initStart (decodePlatformInitStartEvent evt.record).1⟩]
  else if evt.type = "function" then
    [⟨evt.time, evt.type, Record.function (decodeFunctionRecord evt.record).1⟩]
  else if evt.type = "platform.start" then
    [⟨evt.time, evt.type, Record.start (decodePlatformStartEvent evt.record).1⟩]
  else if evt.type = "platform.report" then
    [⟨evt.time, evt.type, Record.report (decodePlatformReportEvent evt.record).1⟩]
  else if evt.type = "platform.runtimeDone" then
    [⟨evt.time, evt.type, Record.runtimeDone (decodePlatformRuntimeDone evt.record).1⟩]
  else []

/-- The whole envelope loop of one inbound request: the sequence of events
pushed onto the queue, in order. -/
def processBatch : List UnknownEvent → List Event
  | [] => []
  | e :: rest => handleEnvelope e ++ processBatch rest

/-- The set of type tags that the listener's switch queues an event for. -/
def recognizedType (t : String) : Bool :=
  t == "platform.initStart" || t == "platform.start" || t == "platform.report" ||
  t == "platform.runtimeDone" || t == "function"

/-! ## main.go: the routing directive -/

/-- `Action` of main.go: `properties` is a `json.RawMessage`, `none` when the
key is absent (a nil raw message). -/
structure Action where
  action : String
  properties : Option Json

/-- `LogSplitAction` of main.go. -/
structure LogSplitAction where
  logGroupName : String
deriving DecidableEq

/-- `pattern.FindStringSubmatch` for `regexp.MustCompile("::sst::(.+)")`:
the submatch is everything after the leftmost `::sst::` that is followed by
at least one non-newline character, up to the end of the line (`.` does not
match `\n`, `.+` is greedy).  When a marker occurrence is followed by
nothing or a newline, the engine retries from the next position. -/
def findSstPayload : List Char → Option String
  | [] => none
  | ':' :: ':' :: 's' :: 's' :: 't' :: ':' :: ':' :: after =>
    let payload := after.takeWhile (fun c => !(c == '\n'))
    if payload.isEmpty then
      findSstPayload (':' :: 's' :: 's' :: 't' :: ':' :: ':' :: after)
    else some (String.mk payload)
  | _ :: rest => findSstPayload rest

/-- `json.Unmarshal([]byte(matches[1]), &action)`: `none` iff `err != nil`. -/
def unmarshalAction (s : String) : Option Action :=
  match parseJson s with
  | some (Json.obj fields) =>
    let a := strField fields "action"
    if a.2 then some ⟨a.1, rawField fields "properties"⟩ else none
  | some Json.null => some ⟨"", none⟩
  | _ => none

/-- `json.Unmarshal(action.Properties, &logSplitAction)`: a nil raw message
errors (`unexpected end of JSON input`); a JSON `null` is a no-op leaving the
zero value. -/
def decodeLogSplit (props : Option Json) : Option LogSplitAction :=
  match props with
  | none => none
  | some (Json.obj fields) =>
    let g := strField fields "logGroupName"
    if g.2 then some ⟨g.1⟩ else none
  | some Json.null => some ⟨""⟩
  | some _ => none

/-! ## main.go: the per-invocation buffer state machine -/

/-- The mutable state of one invocation cycle: the `buffer` slice and the
`logGroupName` variable of main.go. -/
structure LoopState where
  buffer : List String
  logGroupName : String
deriving DecidableEq

/-- The `server.FunctionEvent` case of the switch in main.go: a marker match
whose payload unmarshals to a `log.split` action with decodable properties
sets `logGroupName` and appends nothing; every decode failure `continue`s
(appending nothing); a line with no marker match is appended verbatim. -/
def handleFunction (st : LoopState) (v : String) : LoopState :=
  match findSstPayload v.data with
  | some payload =>
    match unmarshalAction payload with
    | none => st
    | some action =>
      if action.action ≠ "log.split" then st
      else
        match decodeLogSplit action.properties with
        | none => st
        | some logSplitAction => { st with logGroupName := logSplitAction.logGroupName }
  | none => { st with buffer := st.buffer ++ [v] }

/-- The group a function-log line would route to: `some g` exactly when the
line passes the whole directive pipeline of main.go. -/
def directiveOf (s : String) : Option String :=
  match findSstPayload s.data with
  | some payload =>
    match unmarshalAction payload with
    | none => none
    | some action =>
      if action.action ≠ "log.split" then none
      else
        match decodeLogSplit action.properties with
        | none => none
        | some logSplitAction => some logSplitAction.logGroupName
  | none => none

def initStartLine (v : PlatformInitStartEvent) : String :=
  "INIT_START Runtime Version: " ++ v.runtimeVersion ++ " Runtime Version ARN: " ++
    v.runtimeVersionArn

def startLine (v : PlatformStartEvent) : String :=
  "START RequestId: " ++ v.requestID ++ " Version: " ++ v.version

def endLine (v : PlatformRuntimeDone) : String :=
  "END RequestId: " ++ v.requestID

/-- The REPORT line of main.go; `memorySize` is
`os.Getenv("AWS_LAMBDA_FUNCTION_MEMORY_SIZE")`, and both duration fields
print `v.Metrics.DurationMs`. -/
def reportLine (memorySize : String) (v : PlatformRuntimeDone) : String :=
  "REPORT RequestId: " ++ v.requestID ++ "\tDuration: " ++ v.metrics.durationMs ++
    " ms\tBilled Duration: " ++ v.metrics.durationMs ++ " ms\tMemory Size: " ++
    memorySize ++ " MB\tMax Memory Used: 0 MB"

/-- The effect of one non-`runtimeDone` event on the invocation state (the
`switch v := evt.Record.(type)` cases of main.go that do not break the
loop); a `PlatformReportEvent` has no case and changes nothing. -/
def stepState (st : LoopState) (e : Event) : LoopState :=
  match e.record with
  | Record.initStart v => { st with buffer := st.buffer ++ [initStartLine v] }
  | Record.start v => { st with buffer := st.buffer ++ [startLine v] }
  | Record.function s => handleFunction st s
  | Record.report _ => st
  | Record.runtimeDone _ => st

/-- What one flush submits: `PutLogEventsInput`'s group, stream and ordered
messages (each message is also stamped with the wall-clock time of the
flush, which the embedding does not model). -/
structure FlushRecord where
  logGroupName : String
  logStreamName : String
  messages : List String
deriving DecidableEq

/-- The `for evt := range server.Events` loop of main.go: drain events one at
a time; the first `PlatformRuntimeDone` appends the END and REPORT lines,
flushes the buffer (`some` flush record) and `break outerloop`s; if the
channel is exhausted first, no flush happens. -/
def processEvents (memorySize streamName : String) (st : LoopState) :
    List Event → LoopState × Option FlushRecord
  | [] => (st, none)
  | e :: rest =>
    match e.record with
    | Record.runtimeDone v =>
      let st2 := { st with buffer := st.buffer ++ [endLine v, reportLine memorySize v] }
      (st2, some ⟨st.logGroupName, streamName, st2.buffer⟩)
    | _ => processEvents memorySize streamName (stepState st e) rest

/-! ## main.go: the coordinator loop body -/

/-- `Tracing` of the extension API client. -/
structure Tracing where
  type : String
  value : String
deriving DecidableEq

/-- `NextEventResponse` of the extension API client. -/
structure NextEventResponse where
  eventType : String
  deadlineMs : Int
  requestID : String
  invokedFunctionArn : String
  tracing : Tracing
deriving DecidableEq

/-- `extension.Invoke`. -/
def Invoke : String := "INVOKE"

/-- `extension.Shutdown`. -/
def Shutdown : String := "SHUTDOWN"

/-- The observable outcome of one iteration of main.go's `for` loop after a
successful `EventNext` poll: whether the loop returns (process exit),
whether `server.Shutdown` was invoked anywhere in the iteration (main.go
never calls it), and the invocation cycle's result when the event was an
`Invoke`.  `logGroupName` and `buffer` are reset before dispatching. -/
structure IterOutcome where
  exits : Bool
  serverShutdownCalled : Bool
  invocation : Option (LoopState × Option FlushRecord)
deriving DecidableEq

/-- One iteration of the coordinator loop of main.go (lines 259-346): on
`Invoke`, run a full invocation cycle from the reset state; on `Shutdown`,
plain `return`; on any other event type, fall through and poll again. -/
def loopIteration (memorySize streamName : String) (res : NextEventResponse)
    (events : List Event) : IterOutcome :=
  if res.eventType == Invoke then
    ⟨false, false, some (processEvents memorySize streamName ⟨[], ""⟩ events)⟩
  else if res.eventType == Shutdown then
    ⟨true, false, none⟩
  else
    ⟨false, false, none⟩

/-! ## main.go: the put/create retry loop over CloudWatch Logs -/

/-- Outcome of one `client.PutLogEvents` attempt, as classified by the code:
`errors.As(err, &apiErr) && apiErr.ErrorCode() == "ResourceNotFoundException"`
is the only error that does not break the loop. -/
inductive PutOutcome where
  | ok : PutOutcome
  | apiErr (code : String) : PutOutcome
  | otherErr : PutOutcome
deriving DecidableEq

/-- Outcome of a `CreateLogGroup`/`CreateLogStream` call.  The code assigns
the returned error to `err` and never reads it, so the outcome cannot
influence control flow. -/
inductive CreateOutcome where
  | ok : CreateOutcome
  | alreadyExists : CreateOutcome
  | otherErr : CreateOutcome
deriving DecidableEq

/-- One call the retry loop makes against the log store. -/
inductive SinkCall where
  | putAttempt : SinkCall
  | createGroup (result : CreateOutcome) : SinkCall
  | createStream (result : CreateOutcome) : SinkCall
deriving DecidableEq

/-- The `for { PutLogEvents ... }` retry loop of main.go (lines 321-338),
driven by an environment supplying the outcome of each successive put and
create call.  Returns the calls made in order and whether the loop
terminated within the supplied outcomes (the source loop is unbounded: it
retries for as long as the environment keeps answering
`ResourceNotFoundException`). -/
def putEventsLoop : List PutOutcome → List CreateOutcome → List CreateOutcome →
    List SinkCall × Bool
  | [], _, _ => ([], false)
  | PutOutcome.ok :: _, _, _ => ([SinkCall.putAttempt], true)
  | PutOutcome.otherErr :: _, _, _ => ([SinkCall.putAttempt], true)
  | PutOutcome.apiErr code :: ps, gs, ss =>
    if code == "ResourceNotFoundException" then
      let r := putEventsLoop ps gs.tail ss.tail
      (SinkCall.putAttempt :: SinkCall.createGroup (gs.headD CreateOutcome.ok) ::
        SinkCall.createStream (ss.headD CreateOutcome.ok) :: r.1, r.2)
    else ([SinkCall.putAttempt], true)

/-! ## listener.go: Shutdown -/

/-- The package-level mutable state of listener.go that `Shutdown` touches:
whether `httpServer` is non-nil and whether the `Events` channel has been
closed. -/
structure ListenerGlobals where
  serverLive : Bool
  eventsClosed : Bool
deriving DecidableEq

/-- Result of one `Shutdown()` call: the new global state, or a runtime
panic (`close` of an already-closed channel). -/
inductive ShutdownOutcome where
  | ok (g : ListenerGlobals) : ShutdownOutcome
  | panicked : ShutdownOutcome
deriving DecidableEq

/-- listener.go `Shutdown` (lines 158-170): if `httpServer != nil`, call
`httpServer.Shutdown(ctx)` (its success is the environment's `gracefulOk`),
then `close(Events)` — which panics if the channel is already closed — and
only on a successful graceful shutdown set `httpServer = nil`. -/
def shutdownStep (gracefulOk : Bool) (g : ListenerGlobals) : ShutdownOutcome :=
  if g.serverLive then
    if g.eventsClosed then ShutdownOutcome.panicked
    else if gracefulOk then ShutdownOutcome.ok ⟨false, true⟩
    else ShutdownOutcome.ok ⟨true, true⟩
  else ShutdownOutcome.ok g

/-! ## Derived notions used by the claim statements -/

/-- Events whose record is a `PlatformRuntimeDone`. -/
def isRuntimeDone (e : Event) : Bool :=
  match e.record with
  | Record.runtimeDone _ => true
  | _ => false

/-- Events whose record is a function log line carrying a valid routing
directive. -/
def isDirective (e : Event) : Bool :=
  match e.record with
  | Record.function s => (directiveOf s).isSome
  | _ => false

/-- A queued function-log event (the time and type tags are irrelevant to
the invocation loop, which dispatches on the record alone). -/
def functionEvt (s : String) : Event :=
  ⟨"", "function", Record.function s⟩

/-- A queued runtime-done event. -/
def runtimeDoneEvt (v : PlatformRuntimeDone) : Event :=
  ⟨"", "platform.runtimeDone", Record.runtimeDone v⟩

/-- A directive line used as a concrete input: routes to `/g/one`. -/
def dirOne : String :=
  "::sst::\x7b\"action\":\"log.split\",\"properties\":\x7b\"logGroupName\":\"/g/one\"\x7d\x7d"

/-- A directive line used as a concrete input: routes to `/g/two`. -/
def dirTwo : String :=
  "::sst::\x7b\"action\":\"log.split\",\"properties\":\x7b\"logGroupName\":\"/g/two\"\x7d\x7d"

/-- A line whose marker matches but whose payload is not valid JSON. -/
def dirMalformed : String := "::sst::notjson"

/-! ## Helper lemmas -/

lemma isRuntimeDone_functionEvt (s : String) : isRuntimeDone (functionEvt s) = false := rfl

lemma stepState_function (st : LoopState) (s : String) :
    stepState st (functionEvt s) = handleFunction st s := rfl

/-- `handleFunction` through the lens of `directiveOf`: a line with no marker
match is appended verbatim; a line with a marker match either routes (valid
directive) or is dropped entirely. -/
lemma handleFunction_eq (st : LoopState) (s : String) :
    handleFunction st s =
      match findSstPayload s.data with
      | none => { st with buffer := st.buffer ++ [s] }
      | some _ =>
        match directiveOf s with
        | some g => { st with logGroupName := g }
        | none => st := by
  cases hf : findSstPayload s.data with
  | none => simp [handleFunction, directiveOf, hf]
  | some payload =>
    cases hu : unmarshalAction payload with
    | none => simp [handleFunction, directiveOf, hf, hu]
    | some a =>
      by_cases ha : a.action = "log.split"
      · cases hd : decodeLogSplit a.properties with
        | none => simp [handleFunction, directiveOf, hf, hu, ha, hd]
        | some lsa => simp [handleFunction, directiveOf, hf, hu, ha, hd]
      · simp [handleFunction, directiveOf, hf, hu, ha]

lemma handleFunction_of_directive {s g : String} (st : LoopState)
    (h : directiveOf s = some g) :
    handleFunction st s = { st with logGroupName := g } := by
  rw [handleFunction_eq]
  cases hf : findSstPayload s.data with
  | none => simp [directiveOf, hf] at h
  | some p => simp only [h]

lemma handleFunction_of_nodirective {s : String} (st : LoopState) (p : String)
    (hf : findSstPayload s.data = some p) (h : directiveOf s = none) :
    handleFunction st s = st := by
  rw [handleFunction_eq, hf, h]

lemma handleFunction_logGroupName_of_none {s : String} (st : LoopState)
    (h : directiveOf s = none) :
    (handleFunction st s).logGroupName = st.logGroupName := by
  rw [handleFunction_eq]
  cases hf : findSstPayload s.data with
  | none => rfl
  | some p => rw [h]

lemma processEvents_cons_nondone (ms sn : String) (st : LoopState) (e : Event)
    (rest : List Event) (h : isRuntimeDone e = false) :
    processEvents ms sn st (e :: rest) = processEvents ms sn (stepState st e) rest := by
  cases hr : e.record with
  | initStart v => simp [processEvents, stepState, hr]
  | start v => simp [processEvents, stepState, hr]
  | report v => simp [processEvents, stepState, hr]
  | function s => simp [processEvents, stepState, hr]
  | runtimeDone v => simp [isRuntimeDone, hr] at h

lemma processEvents_done (ms sn : String) (st : LoopState) (v : PlatformRuntimeDone)
    (rest : List Event) :
    processEvents ms sn st (runtimeDoneEvt v :: rest) =
      ({ st with buffer := st.buffer ++ [endLine v, reportLine ms v] },
       some ⟨st.logGroupName, sn, st.buffer ++ [endLine v, reportLine ms v]⟩) := by
  simp [processEvents, runtimeDoneEvt]

lemma processEvents_append (ms sn : String) (xs ys : List Event) (st : LoopState)
    (h : ∀ e ∈ xs, isRuntimeDone e = false) :
    processEvents ms sn st (xs ++ ys) =
      processEvents ms sn (processEvents ms sn st xs).1 ys := by
  induction xs generalizing st with
  | nil => simp [processEvents]
  | cons e xs ih =>
    have he : isRuntimeDone e = false := h e (List.mem_cons_self _ _)
    have hxs : ∀ x ∈ xs, isRuntimeDone x = false := fun x hx => h x (List.mem_cons_of_mem _ hx)
    rw [List.cons_append, processEvents_cons_nondone _ _ _ _ _ he,
      processEvents_cons_nondone _ _ _ _ _ he, ih _ hxs]

lemma processEvents_fst_logGroupName (ms sn : String) (xs : List Event) (st : LoopState)
    (h : ∀ e ∈ xs, isRuntimeDone e = false ∧ isDirective e = false) :
    ((processEvents ms sn st xs).1).logGroupName = st.logGroupName := by
  induction xs generalizing st with
  | nil => simp [processEvents]
  | cons e xs ih =>
    obtain ⟨hd, hdir⟩ := h e (List.mem_cons_self _ _)
    have hxs : ∀ x ∈ xs, isRuntimeDone x = false ∧ isDirective x = false :=
      fun x hx => h x (List.mem_cons_of_mem _ hx)
    rw [processEvents_cons_nondone _ _ _ _ _ hd, ih _ hxs]
    cases hr : e.record with
    | initStart v => simp [stepState, hr]
    | start v => simp [stepState, hr]
    | report v => simp [stepState, hr]
    | runtimeDone v => simp [isRuntimeDone, hr] at hd
    | function s =>
      have hnone : directiveOf s = none := by
        cases hds : directiveOf s with
        | none => rfl
        | some g => simp [isDirective, hr, hds] at hdir
      simp only [stepState, hr]
      exact handleFunction_logGroupName_of_none st hnone

lemma handleEnvelope_eq (e : UnknownEvent) :
    handleEnvelope e = if recognizedType e.type then [dispatchEvent e] else [] := by
  unfold handleEnvelope dispatchEvent recognizedType
  by_cases h1 : e.type = "platform.initStart" <;>
    by_cases h2 : e.type = "function" <;>
    by_cases h3 : e.type = "platform.start" <;>
    by_cases h4 : e.type = "platform.report" <;>
    by_cases h5 : e.type = "platform.runtimeDone" <;>
    simp_all

lemma dispatchEvent_type (e : UnknownEvent) : (dispatchEvent e).type = e.type := by
  unfold dispatchEvent
  split_ifs <;> rfl

/-! ## Claims -/

/-- Claim C1, counterexample: for the line `::sst::notjson` the directive
marker matches and the JSON payload fails to decode, yet the raw line is
NOT appended to the buffer — `main.go` drops it (`continue`), leaving the
buffer empty instead of holding the line verbatim. -/
theorem malformed_payload_not_appended_counterexample :
    findSstPayload dirMalformed.data = some "notjson"
    ∧ (unmarshalAction "notjson").isSome = false
    ∧ handleFunction ⟨[], ""⟩ dirMalformed = ⟨[], ""⟩
    ∧ handleFunction ⟨[], ""⟩ dirMalformed ≠ ⟨[dirMalformed], ""⟩ :=
  ⟨rfl, rfl, rfl, by decide⟩

/-- Claim C1 (amended): if a FunctionLog line matches the directive marker
pattern but its JSON payload fails to decode, the line is silently dropped —
nothing is appended to the log buffer — and `targetGroup` is left
unchanged. -/
theorem marker_decode_failure_drops_line (st : LoopState) (s p : String)
    (h₁ : findSstPayload s.data = some p) (h₂ : unmarshalAction p = none) :
    handleFunction st s = st := by
  simp [handleFunction, h₁, h₂]

theorem marker_decode_failure_drops_line_witness :
    handleFunction ⟨["a"], "grp"⟩ dirMalformed = ⟨["a"], "grp"⟩ :=
  marker_decode_failure_drops_line ⟨["a"], "grp"⟩ dirMalformed "notjson" rfl rfl

/-- Claim C2: when the invocation's function-log stream contains two valid
`log.split` directives with differing group names — the second one followed
only by non-directive, non-done events before the `RuntimeDone` — the flush
targets the group of the last directive observed. -/
theorem last_directive_wins (ms sn : String) (pre mid tl : List Event)
    (s₁ s₂ g₁ g₂ : String) (v : PlatformRuntimeDone)
    (h₁ : directiveOf s₁ = some g₁) (h₂ : directiveOf s₂ = some g₂) (hne : g₁ ≠ g₂)
    (hpre : ∀ e ∈ pre, isRuntimeDone e = false)
    (hmid : ∀ e ∈ mid, isRuntimeDone e = false)
    (htl : ∀ e ∈ tl, isRuntimeDone e = false ∧ isDirective e = false) :
    ∃ st fr,
      processEvents ms sn ⟨[], ""⟩
        (pre ++ functionEvt s₁ :: (mid ++ functionEvt s₂ :: (tl ++ [runtimeDoneEvt v])))
        = (st, some fr)
      ∧ fr.logGroupName = g₂ := by
  rw [processEvents_append _ _ _ _ _ hpre,
    processEvents_cons_nondone _ _ _ _ _ (isRuntimeDone_functionEvt s₁),
    stepState_function, handleFunction_of_directive _ h₁,
    processEvents_append _ _ _ _ _ hmid,
    processEvents_cons_nondone _ _ _ _ _ (isRuntimeDone_functionEvt s₂),
    stepState_function, handleFunction_of_directive _ h₂,
    processEvents_append _ _ _ _ _ (fun e he => (htl e he).1),
    processEvents_done]
  refine ⟨_, _, rfl, ?_⟩
  exact processEvents_fst_logGroupName _ _ _ _ htl

theorem last_directive_wins_witness :
    ∃ st fr,
      processEvents "128" "2024/01/02/u" ⟨[], ""⟩
        ([] ++ functionEvt dirOne :: ([] ++ functionEvt dirTwo ::
          ([] ++ [runtimeDoneEvt ⟨"r1", ⟨"12.3"⟩⟩])))
        = (st, some fr)
      ∧ fr.logGroupName = "/g/two" :=
  last_directive_wins "128" "2024/01/02/u" [] [] [] dirOne dirTwo "/g/one" "/g/two"
    ⟨"r1", ⟨"12.3"⟩⟩ rfl rfl (by decide) (by simp) (by simp) (by simp)

/-- Claim C3: for every inbound batch, the events pushed onto the queue are
exactly the recognized-type envelopes, dispatched in batch order; their
count equals the count of recognized-type envelopes, and no event with an
unrecognized type tag ever enters the queue. -/
theorem batch_queue_count_and_order (batch : List UnknownEvent) :
    processBatch batch = (batch.filter fun e => recognizedType e.type).map dispatchEvent
    ∧ (processBatch batch).length = (batch.filter fun e => recognizedType e.type).length
    ∧ ∀ ev ∈ processBatch batch, recognizedType ev.type = true := by
  have hmain : processBatch batch =
      (batch.filter fun e => recognizedType e.type).map dispatchEvent := by
    induction batch with
    | nil => rfl
    | cons e rest ih =>
      rw [processBatch, handleEnvelope_eq, ih, List.filter_cons]
      by_cases h : recognizedType e.type
      · simp [h]
      · simp [h]
  refine ⟨hmain, by rw [hmain, List.length_map], ?_⟩
  intro ev hev
  rw [hmain] at hev
  obtain ⟨e, he, rfl⟩ := List.mem_map.mp hev
  rw [dispatchEvent_type]
  exact (List.mem_filter.mp he).2

/-- Claim C4: dequeuing a `RuntimeDone` event appends exactly two lines — an
END line naming the request id, then a REPORT line whose billed duration
mirrors the duration and whose max memory used is 0 — then flushes; no
event after it is processed in this invocation. -/
theorem runtime_done_appends_end_report_and_flushes (ms sn : String)
    (st : LoopState) (v : PlatformRuntimeDone) (rest : List Event) :
    processEvents ms sn st (runtimeDoneEvt v :: rest) =
      ({ st with buffer := st.buffer ++
          ["END RequestId: " ++ v.requestID,
           "REPORT RequestId: " ++ v.requestID ++ "\tDuration: " ++ v.metrics.durationMs ++
             " ms\tBilled Duration: " ++ v.metrics.durationMs ++ " ms\tMemory Size: " ++
             ms ++ " MB\tMax Memory Used: 0 MB"] },
       some ⟨st.logGroupName, sn,
         st.buffer ++
          ["END RequestId: " ++ v.requestID,
           "REPORT RequestId: " ++ v.requestID ++ "\tDuration: " ++ v.metrics.durationMs ++
             " ms\tBilled Duration: " ++ v.metrics.durationMs ++ " ms\tMemory Size: " ++
             ms ++ " MB\tMax Memory Used: 0 MB"]⟩) := by
  rw [processEvents_done]
  rfl

/-- Claim C5: a put against a missing destination, with the
destination-missing error reported exactly once, performs exactly one
create-group call and one create-stream call and then exactly one retry of
the put, which succeeds; the create outcomes (including `alreadyExists`
conflicts) never influence the calls made. -/
theorem put_events_missing_destination_single_retry (g s : CreateOutcome) :
    putEventsLoop [PutOutcome.apiErr "ResourceNotFoundException", PutOutcome.ok] [g] [s]
      = ([SinkCall.putAttempt, SinkCall.createGroup g, SinkCall.createStream s,
          SinkCall.putAttempt], true) := by
  simp [putEventsLoop]

/-- Claim C6, counterexample: an envelope of recognized type whose record
fails to decode is NOT dropped — the listener discards the unmarshal error
and still pushes an event (with the zero-valued record) onto the queue. -/
theorem record_decode_failure_counterexample :
    (decodePlatformStartEvent (Json.str "oops")).2 = false
    ∧ processBatch [⟨"t0", "platform.start", Json.str "oops"⟩]
        = [⟨"t0", "platform.start", Record.start ⟨"", ""⟩⟩]
    ∧ processBatch [⟨"t0", "platform.start", Json.str "oops"⟩] ≠ [] :=
  ⟨rfl, rfl, by decide⟩

/-- Claim C6 (amended): when a single envelope's record fails to decode, the
decode error is ignored — an event carrying the zero-valued record is still
pushed — and processing of the remaining envelopes in the batch
continues. -/
theorem record_decode_failure_pushes_zero_event (time : String) (r : Json)
    (rest : List UnknownEvent)
    (hfail : (decodePlatformStartEvent r).2 = false) :
    processBatch (⟨time, "platform.start", r⟩ :: rest)
      = ⟨time, "platform.start", Record.start (decodePlatformStartEvent r).1⟩ ::
          processBatch rest := by
  rw [processBatch]
  simp [handleEnvelope]

theorem record_decode_failure_pushes_zero_event_witness :
    processBatch [⟨"t1", "platform.start", Json.num "7"⟩]
      = [⟨"t1", "platform.start", Record.start ⟨"", ""⟩⟩] :=
  (record_decode_failure_pushes_zero_event "t1" (Json.num "7") [] rfl).trans rfl

/-- Claim C7: the second `Shutdown()` call is only a no-op when the first
call's graceful HTTP shutdown succeeded; when the first graceful shutdown
fails, `httpServer` stays non-nil and the second call reaches
`close(Events)` on an already-closed channel and panics. -/
theorem second_shutdown_after_failed_first_panics :
    shutdownStep false ⟨true, false⟩ = ShutdownOutcome.ok ⟨true, true⟩
    ∧ shutdownStep true ⟨true, true⟩ = ShutdownOutcome.panicked
    ∧ shutdownStep false ⟨true, true⟩ = ShutdownOutcome.panicked
    ∧ shutdownStep true ⟨true, false⟩ = ShutdownOutcome.ok ⟨false, true⟩
    ∧ shutdownStep true ⟨false, true⟩ = ShutdownOutcome.ok ⟨false, true⟩ :=
  ⟨rfl, rfl, rfl, rfl, rfl⟩

/-- Claim C8, counterexample: on a `Shutdown` lifecycle event the
coordinator exits but `server.Shutdown` is never invoked in that
iteration. -/
theorem shutdown_event_no_listener_stop_counterexample :
    (loopIteration "128" "s" ⟨Shutdown, 0, "", "", ⟨"", ""⟩⟩ []).serverShutdownCalled = false
    ∧ (loopIteration "128" "s" ⟨Shutdown, 0, "", "", ⟨"", ""⟩⟩ []).exits = true :=
  ⟨rfl, rfl⟩

/-- Claim C8 (amended): when the long poll returns a `Shutdown` lifecycle
event, the coordinator exits cleanly without invoking the listener's
shutdown (the listener dies with the process instead). -/
theorem shutdown_event_exits_without_listener_stop (ms sn : String)
    (res : NextEventResponse) (events : List Event)
    (h : res.eventType = "SHUTDOWN") :
    loopIteration ms sn res events = ⟨true, false, none⟩ := by
  simp [loopIteration, Invoke, Shutdown, h]

theorem shutdown_event_exits_without_listener_stop_witness :
    loopIteration "256" "str" ⟨"SHUTDOWN", 9, "rq", "arn", ⟨"", ""⟩⟩ [functionEvt "x"]
      = ⟨true, false, none⟩ :=
  shutdown_event_exits_without_listener_stop "256" "str" ⟨"SHUTDOWN", 9, "rq", "arn", ⟨"", ""⟩⟩
    [functionEvt "x"] rfl

/-- Claim C9: a FunctionLog line carrying a valid `log.split` directive is
consumed into `targetGroup` and never appended: processing it only replaces
the group, the buffer is untouched, and processing continues with the rest
of the queue. -/
theorem directive_consumed_not_appended (ms sn : String) (st : LoopState)
    (s g : String) (rest : List Event)
    (h : directiveOf s = some g) :
    handleFunction st s = ⟨st.buffer, g⟩
    ∧ processEvents ms sn st (functionEvt s :: rest)
        = processEvents ms sn ⟨st.buffer, g⟩ rest := by
  have h1 := handleFunction_of_directive st h
  refine ⟨h1, ?_⟩
  rw [processEvents_cons_nondone _ _ _ _ _ (isRuntimeDone_functionEvt s),
    stepState_function, h1]

theorem directive_consumed_not_appended_witness :
    handleFunction ⟨["x"], ""⟩ dirOne = ⟨["x"], "/g/one"⟩
    ∧ processEvents "128" "st2" ⟨["x"], ""⟩ (functionEvt dirOne :: [])
        = processEvents "128" "st2" ⟨["x"], "/g/one"⟩ [] :=
  directive_consumed_not_appended "128" "st2" ⟨["x"], ""⟩ dirOne "/g/one" [] rfl

/-- Claim C10: the invocation cycle performs no requestId correlation — its
result is identical for any two `Invoke` lifecycle events, whatever their
request ids — and the first `RuntimeDone` dequeued triggers the flush
regardless of its own requestId. -/
theorem flush_independent_of_request_id (ms sn : String) :
    (∀ res res2 : NextEventResponse, ∀ events : List Event,
      res.eventType = "INVOKE" → res2.eventType = "INVOKE" →
      loopIteration ms sn res events = loopIteration ms sn res2 events)
    ∧ ∀ (st : LoopState) (v : PlatformRuntimeDone) (rest : List Event),
        (processEvents ms sn st (runtimeDoneEvt v :: rest)).2.isSome = true := by
  constructor
  · intro res res2 events h h2
    simp [loopIteration, Invoke, h, h2]
  · intro st v rest
    rw [processEvents_done]
    rfl

theorem flush_independent_of_request_id_witness :
    loopIteration "128" "sx" ⟨"INVOKE", 100, "r1", "arn:one", ⟨"", ""⟩⟩ []
      = loopIteration "128" "sx" ⟨"INVOKE", 200, "r2", "arn:two", ⟨"", ""⟩⟩ []
    ∧ (processEvents "128" "sx" ⟨[], ""⟩
        [runtimeDoneEvt ⟨"rX", ⟨"1.5"⟩⟩]).2.isSome = true :=
  ⟨(flush_independent_of_request_id "128" "sx").1 _ _ _ rfl rfl,
   (flush_independent_of_request_id "128" "sx").2 ⟨[], ""⟩ ⟨"rX", ⟨"1.5"⟩⟩ []⟩

end SstExt
